import Mathlib

/-!
Verification development for the synthetic e-commerce data pipeline
(`scripts/generate_synthetic_data.py` and `scripts/ingest_to_sqlite.py`).

Shallow embedding conventions:
* Python's seeded pseudo-random source (`random` module plus the seeded
  Faker instance) is modelled as an abstract stream of naturals (`Rng`);
  the concrete distribution algorithm (Mersenne Twister) is abstracted,
  only the functional dependence of draws on the stream matters.
* `uuid.uuid4()` reads the OS entropy source (`os.urandom`), which is NOT
  controlled by `random.seed`/`Faker.seed`; it is modelled as a second,
  independent stream (`GenState.ent`).
* `datetime` values are integers counting hours (all offsets in the code
  are whole days or whole hours).
* Money is exact `Rat` arithmetic; prices carry two decimals by
  construction and `round(x, 2)` is `round2`.
* Faker's name/country/catch-phrase generators are external; they are
  modelled as injective renderings of a seeded-stream draw.
-/

namespace Ecom

/-- An abstract stream of pseudo-random naturals with a read position. -/
structure Rng where
  stream : Nat → Nat
  pos : Nat

/-- Generation state: the seeded stream (Python `random` + seeded Faker)
and the OS entropy stream feeding `uuid.uuid4()`. -/
structure GenState where
  rng : Rng
  ent : Rng

/-- Draw the next value from the seeded stream. -/
def rngNext (s : GenState) : Nat × GenState :=
  (s.rng.stream s.rng.pos, ⟨⟨s.rng.stream, s.rng.pos + 1⟩, s.ent⟩)

/-- Draw the next value from the entropy stream. -/
def entNext (s : GenState) : Nat × GenState :=
  (s.ent.stream s.ent.pos, ⟨s.rng, ⟨s.ent.stream, s.ent.pos + 1⟩⟩)

/-- `uuid.uuid4()`: a fresh 128-bit value from OS entropy.  The uuid
string is an injective rendering of this value, so ids are kept as the
underlying natural number. -/
def uuidDraw (s : GenState) : Nat × GenState :=
  let (n, s') := entNext s
  (n % 2 ^ 128, s')

/-- `random.randint(lo, hi)`: inclusive on both ends (meaningful for
`lo ≤ hi`, which holds at every call site reached by the code). -/
def randint (lo hi : Nat) (s : GenState) : Nat × GenState :=
  let (n, s') := rngNext s
  (lo + n % (hi + 1 - lo), s')

/-- `random.choice(l)` on a possibly-empty list: raises (modelled as
`none`) on an empty sequence, otherwise returns an element of the list. -/
def choice {α : Type} (s : GenState) : List α → Option (α × GenState)
  | [] => none
  | x :: xs =>
    let (n, s') := rngNext s
    some ((x :: xs).getD (n % (xs.length + 1)) x, s')

/-- `random.choice(l)` on a statically non-empty constant list (default
value is never used when `l` is non-empty). -/
def choiceD {α : Type} (s : GenState) (l : List α) (d : α) : α × GenState :=
  let (n, s') := rngNext s
  (l.getD (n % l.length) d, s')

/-- First six hex digits of a (zero-padded, 32-hex-digit) uuid:
`uuid.uuid4().hex[:6]`, kept as the corresponding natural number. -/
def hex6 (u : Nat) : Nat := u / 16 ^ 26

/-- Faker `first_name()` rendering of a seeded draw. -/
def fakeFirstName (n : Nat) : String := "First" ++ toString n

/-- Faker `last_name()` rendering of a seeded draw. -/
def fakeLastName (n : Nat) : String := "Last" ++ toString n

/-- Faker `country()` rendering of a seeded draw. -/
def fakeCountry (n : Nat) : String := "Country" ++ toString n

/-- Faker `catch_phrase()` rendering of a seeded draw. -/
def fakeCatchPhrase (n : Nat) : String := "Phrase" ++ toString n

structure Customer where
  id : Nat
  first_name : String
  last_name : String
  email : String
  country : String
deriving DecidableEq

structure Product where
  id : Nat
  name : String
  category : String
  price : Rat
deriving DecidableEq

structure Order where
  id : Nat
  customer_id : Nat
  order_date : Int
  status : String
deriving DecidableEq

structure OrderItem where
  id : Nat
  order_id : Nat
  product_id : Nat
  quantity : Nat
  unit_price : Rat
deriving DecidableEq

structure Payment where
  id : Nat
  order_id : Nat
  payment_method : String
  amount : Rat
  paid_at : Int
deriving DecidableEq

/-- Default values used with `List.getD` (never observed in bounds). -/
def order0 : Order := ⟨0, 0, 0, ""⟩

def payment0 : Payment := ⟨0, 0, "", 0, 0⟩

/-- Python `round(x, 2)` on exact rationals. -/
def round2 (q : Rat) : Rat := ((round (q * 100) : Int) : Rat) / 100

/-- `round(random.uniform(5, 500), 2)`: a price with two decimals in
[5, 500], determined by a seeded draw. -/
def priceOf (n : Nat) : Rat := ((500 + n % 49501 : Nat) : Rat) / 100

/-- `random.choices(statuses, weights=[0.2, 0.5, 0.25, 0.05])[0]`:
the weighted draw, as a cumulative-weight table over a uniform draw. -/
def statusOf (n : Nat) : String :=
  if n % 100 < 20 then "pending"
  else if n % 100 < 70 then "processing"
  else if n % 100 < 95 then "fulfilled"
  else "cancelled"

/-- `generate_customers(fake, count)`: draws, in program order, the first
name, last name, email uuid suffix, id uuid, and country for each record. -/
def generate_customers : Nat → GenState → List Customer × GenState
  | 0, s => ([], s)
  | n + 1, s =>
    let (a, s1) := rngNext s
    let (b, s2) := rngNext s1
    let (eu, s3) := uuidDraw s2
    let (iu, s4) := uuidDraw s3
    let (c, s5) := rngNext s4
    let first := fakeFirstName a
    let last := fakeLastName b
    let email :=
      (first ++ "." ++ last ++ "." ++ toString (hex6 eu) ++ "@example.com").toLower
    let cust : Customer := ⟨iu, first, last, email, fakeCountry c⟩
    let (rest, s6) := generate_customers n s5
    (cust :: rest, s6)

def categories : List String := ["Electronics", "Apparel", "Home", "Sports", "Beauty"]

/-- `generate_products(fake, count)`: category choice, price draw, id
uuid, and name draw per record, in program order. -/
def generate_products : Nat → GenState → List Product × GenState
  | 0, s => ([], s)
  | n + 1, s =>
    let (cat, s1) := choiceD s categories "Home"
    let (pr, s2) := rngNext s1
    let (u, s3) := uuidDraw s2
    let (nm, s4) := rngNext s3
    let prod : Product := ⟨u, fakeCatchPhrase nm, cat, priceOf pr⟩
    let (rest, s5) := generate_products n s4
    (prod :: rest, s5)

/-- `generate_orders(fake, customers, count)`: per order, the backdating
draw, the id uuid, the customer choice (raising on an empty customer
list), and the weighted status draw, in program order. -/
def generate_orders (customers : List Customer) (now : Int) :
    Nat → GenState → Option (List Order × GenState)
  | 0, s => some ([], s)
  | n + 1, s =>
    let (d, s1) := randint 0 180 s
    let (u, s2) := uuidDraw s1
    match choice s2 customers with
    | none => none
    | some (c, s3) =>
      let (st, s4) := rngNext s3
      match generate_orders customers now n s4 with
      | none => none
      | some (os, s5) =>
        some (⟨u, c.id, now - 24 * (d : Int), statusOf st⟩ :: os, s5)

/-- Inner loop of `generate_order_items`: `k` items for one order, each
drawing a product choice, a quantity, and an id uuid, snapshotting the
chosen product's price. -/
def genItemsLoop (o : Order) (products : List Product) :
    Nat → GenState → Option (List OrderItem × GenState)
  | 0, s => some ([], s)
  | k + 1, s =>
    match choice s products with
    | none => none
    | some (p, s1) =>
      let (q, s2) := randint 1 5 s1
      let (u, s3) := uuidDraw s2
      match genItemsLoop o products k s3 with
      | none => none
      | some (its, s4) => some (⟨u, o.id, p.id, q, p.price⟩ :: its, s4)

/-- Item generation for a single order: `random.randint(1, max_items)`
items. -/
def genItemsForOrder (o : Order) (products : List Product) (maxItems : Nat)
    (s : GenState) : Option (List OrderItem × GenState) :=
  let (k, s1) := randint 1 maxItems s
  genItemsLoop o products k s1

/-- `generate_order_items(orders, products, max_items_per_order)`:
concatenation of each order's items, in order. -/
def generate_order_items (products : List Product) (maxItems : Nat) :
    List Order → GenState → Option (List OrderItem × GenState)
  | [], s => some ([], s)
  | o :: rest, s =>
    match genItemsForOrder o products maxItems s with
    | none => none
    | some (its, s1) =>
      match generate_order_items products maxItems rest s1 with
      | none => none
      | some (more, s2) => some (its ++ more, s2)

/-- One step of the `totals` dict accumulation:
`totals.setdefault(oid, 0); totals[oid] += quantity * unit_price`. -/
def bumpTotals (t : Nat → Rat) (it : OrderItem) : Nat → Rat :=
  fun k => if k = it.order_id then t k + (it.quantity : Rat) * it.unit_price else t k

/-- The `totals` dict of `generate_payments`, folded over the item list in
iteration order; `totals.get(oid, 0)` is `itemTotals items t0 oid` with
`t0` the all-zero map. -/
def itemTotals : List OrderItem → (Nat → Rat) → (Nat → Rat)
  | [], t => t
  | it :: rest, t => itemTotals rest (bumpTotals t it)

def payment_methods : List String := ["card", "paypal", "bank_transfer", "gift_card"]

/-- Payment construction loop over the order list: per order, the id
uuid, the method choice, and the paid-at hour offset draw, in program
order; the amount is read off the prebuilt totals map. -/
def gpGo (t : Nat → Rat) : List Order → GenState → List Payment × GenState
  | [], s => ([], s)
  | o :: rest, s =>
    let (u, s1) := uuidDraw s
    let (m, s2) := choiceD s1 payment_methods "card"
    let (h, s3) := randint 1 48 s2
    let (ps, s4) := gpGo t rest s3
    (⟨u, o.id, m, round2 (t o.id), o.order_date + (h : Int)⟩ :: ps, s4)

/-- `generate_payments(orders, items)`. -/
def generate_payments (orders : List Order) (items : List OrderItem)
    (s : GenState) : List Payment × GenState :=
  gpGo (itemTotals items (fun _ => 0)) orders s

/-- The five in-memory collections of one generation run. -/
structure Dataset where
  customers : List Customer
  products : List Product
  orders : List Order
  order_items : List OrderItem
  payments : List Payment
deriving DecidableEq

/-- The generation phase of `main`, in dependency order; `none` is an
uncaught exception (empty `random.choice`). -/
def generateAll (cc cp co mi : Nat) (now : Int) (s : GenState) : Option Dataset :=
  let (cs, s1) := generate_customers cc s
  let (ps, s2) := generate_products cp s1
  match generate_orders cs now co s2 with
  | none => none
  | some (os, s3) =>
    match generate_order_items ps mi os s3 with
    | none => none
    | some (its, s4) =>
      let (pays, _) := generate_payments os its s4
      some ⟨cs, ps, os, its, pays⟩

/-- A CSV file as a list of rows (header first), each row a list of
cells. -/
abbrev Csv := List (List String)

/-- The output directory: file name to file content (`none` = absent). -/
abbrev FileSys := String → Option Csv

/-- `_write_csv(path, headers, rows)`: open with mode "w" (truncate),
write the header row then the data rows.  The previous content at `path`
does not influence the result. -/
def write_csv (fs : FileSys) (path : String) (headers : List String)
    (rows : List (List String)) : FileSys :=
  fun p => if p = path then some (headers :: rows) else fs p

def customersHeader : List String := ["id", "first_name", "last_name", "email", "country"]

def productsHeader : List String := ["id", "name", "category", "price"]

def ordersHeader : List String := ["id", "customer_id", "order_date", "status"]

def orderItemsHeader : List String := ["id", "order_id", "product_id", "quantity", "unit_price"]

def paymentsHeader : List String := ["id", "order_id", "payment_method", "amount", "paid_at"]

/-- ISO-8601 timestamp serialization, abstracted to an injective
rendering of the hour count. -/
def timeStr (t : Int) : String := toString t

/-- Row serializations (`vars(record).values()`, with the explicit field
lists used for orders and payments in `main`). -/
def customerRow (c : Customer) : List String :=
  [toString c.id, c.first_name, c.last_name, c.email, c.country]

def productRow (p : Product) : List String :=
  [toString p.id, p.name, p.category, toString p.price]

def orderRow (o : Order) : List String :=
  [toString o.id, toString o.customer_id, timeStr o.order_date, o.status]

def orderItemRow (it : OrderItem) : List String :=
  [toString it.id, toString it.order_id, toString it.product_id,
    toString it.quantity, toString it.unit_price]

def paymentRow (p : Payment) : List String :=
  [toString p.id, toString p.order_id, p.payment_method, toString p.amount,
    timeStr p.paid_at]

/-- The five `_write_csv` calls of `main`, in program order. -/
def writeAll (fs : FileSys) (ds : Dataset) : FileSys :=
  write_csv
    (write_csv
      (write_csv
        (write_csv
          (write_csv fs "customers.csv" customersHeader (ds.customers.map customerRow))
          "products.csv" productsHeader (ds.products.map productRow))
        "orders.csv" ordersHeader (ds.orders.map orderRow))
      "order_items.csv" orderItemsHeader (ds.order_items.map orderItemRow))
    "payments.csv" paymentsHeader (ds.payments.map paymentRow)

/-- The seeded stream as a function of the seed (`random.seed(seed)` and
`Faker.seed(seed)`); the concrete mixing function abstracts the PRNG. -/
def seedRng (seed : Nat) : Rng := ⟨fun i => (seed + 1) * (2 * i + 1), 0⟩

/-- `main` of the generator: seed the pseudo-random source, generate the
five collections, write the five CSV files.  The entropy stream `ent`
(feeding `uuid.uuid4()`) is an input of the process, not a function of
the seed.  `none` is an uncaught exception before any file is written
(all generation precedes all writes in `main`). -/
def generatorMain (cc cp co mi seed : Nat) (now : Int) (ent : Rng)
    (fs : FileSys) : Option FileSys :=
  match generateAll cc cp co mi now ⟨seedRng seed, ent⟩ with
  | none => none
  | some ds => some (writeAll fs ds)

/-!  The CSV-to-SQLite loader (`scripts/ingest_to_sqlite.py`). -/

/-- A `csv.DictReader` row: ordered column-name/value pairs. -/
abbrev Row := List (String × String)

/-- The database: named tables with their rows, in creation order. -/
structure DBState where
  tables : List (String × List Row)
deriving DecidableEq

/-- `_load_csv_rows(path)` on already-read file content: `DictReader`
pairs each data row with the header. -/
def load_csv_rows (file : Csv) : List Row :=
  match file with
  | [] => []
  | header :: rows => rows.map (fun r => header.zip r)

/-- Update the named table by appending the rows. -/
def updTables : List (String × List Row) → String → List Row → List (String × List Row)
  | [], _, _ => []
  | (n, rs) :: rest, t, rows =>
    if n = t then (n, rs ++ rows) :: updTables rest t rows
    else (n, rs) :: updTables rest t rows

/-- `_insert_many(conn, table, rows)`: early-returns on an empty row
list, otherwise appends every row to the table — the state change of a
successful `conn.executemany`.  sqlite constraint violations (a
duplicate primary-key id, a NOT NULL failure from a short row padded
with None by DictReader, a header column absent from the table) make
`conn.executemany` raise in the source and are outside this
successful-insert embedding; accordingly, the load theorems below
conclude a successful load only on inputs where `executemany` cannot
fail — empty row lists, and concrete conflict-free rows. -/
def insert_many (db : DBState) (table : String) (rows : List Row) : DBState :=
  if rows = [] then db else ⟨updTables db.tables table rows⟩

/-- One `CREATE TABLE` statement: SQLite errors if the table exists
(the DDL has no IF NOT EXISTS). -/
def createTable (db : DBState) (name : String) : Except String DBState :=
  if name ∈ db.tables.map Prod.fst then
    Except.error ("table " ++ name ++ " already exists")
  else Except.ok ⟨db.tables ++ [(name, [])]⟩

def tableNames : List String :=
  ["customers", "products", "orders", "order_items", "payments"]

/-- The `CREATE_STATEMENTS` loop. -/
def createTablesGo : List String → DBState → Except String DBState
  | [], db => Except.ok db
  | n :: rest, db =>
    match createTable db n with
    | Except.error e => Except.error e
    | Except.ok db1 => createTablesGo rest db1

def createTables (db : DBState) : Except String DBState :=
  createTablesGo tableNames db

/-- Read one CSV file and insert its rows (a missing file raises). -/
def ingestOne (fileAt : FileSys) (db : DBState) (table fname : String) :
    Except String DBState :=
  match fileAt fname with
  | none => Except.error ("missing file: " ++ fname)
  | some csv => Except.ok (insert_many db table (load_csv_rows csv))

def ingestPairs : List (String × String) :=
  [("customers", "customers.csv"), ("products", "products.csv"),
    ("orders", "orders.csv"), ("order_items", "order_items.csv"),
    ("payments", "payments.csv")]

/-- The five `_insert_many` calls of the loader's `main`, in order. -/
def ingestAll (fileAt : FileSys) : List (String × String) → DBState → Except String DBState
  | [], db => Except.ok db
  | (t, f) :: rest, db =>
    match ingestOne fileAt db t f with
    | Except.error e => Except.error e
    | Except.ok db1 => ingestAll fileAt rest db1

/-- `main` of the loader: unless `--keep-existing` is set, a pre-existing
database file at the target path is deleted (`db_path.unlink()`);
`sqlite3.connect` then opens the surviving file or creates an empty
store; the five tables are created and the five CSV files ingested. -/
def loader_main (fileAt : FileSys) (existing : Option DBState)
    (keep_existing : Bool) : Except String DBState :=
  let onDisk : Option DBState := if keep_existing then existing else none
  let db0 : DBState := onDisk.getD ⟨[]⟩
  match createTables db0 with
  | Except.error e => Except.error e
  | Except.ok db1 => ingestAll fileAt ingestPairs db1

/-! ### Helper lemmas about the generator -/

theorem choice_isSome {α : Type} (s : GenState) (l : List α) (hne : l ≠ []) :
    ∃ x s', choice s l = some (x, s') := by
  cases l with
  | nil => exact absurd rfl hne
  | cons x xs => exact ⟨_, _, rfl⟩

theorem choice_mem {α : Type} (s : GenState) (l : List α) (x : α) (s' : GenState)
    (h : choice s l = some (x, s')) : x ∈ l := by
  cases l with
  | nil => cases h
  | cons y ys =>
    simp only [choice] at h
    injection h with hpair
    injection hpair with hx hs
    have hlt : (rngNext s).1 % (ys.length + 1) < (y :: ys).length :=
      Nat.mod_lt _ (Nat.succ_pos _)
    rw [← hx, List.getD_eq_getElem _ _ hlt]
    exact List.getElem_mem _

theorem randint_bounds (lo hi : Nat) (s : GenState) (h : lo ≤ hi) :
    lo ≤ (randint lo hi s).1 ∧ (randint lo hi s).1 ≤ hi := by
  have hpos : 0 < hi + 1 - lo := by omega
  have hm := Nat.mod_lt (s.rng.stream s.rng.pos) hpos
  simp only [randint, rngNext]
  omega

theorem gc_length (n : Nat) (s : GenState) :
    (generate_customers n s).1.length = n := by
  induction n generalizing s with
  | zero => rfl
  | succ k ih => simp [generate_customers, ih]

theorem gpd_length (n : Nat) (s : GenState) :
    (generate_products n s).1.length = n := by
  induction n generalizing s with
  | zero => rfl
  | succ k ih => simp [generate_products, ih]

theorem go_some (customers : List Customer) (now : Int) (hne : customers ≠ [])
    (n : Nat) (s : GenState) :
    ∃ os s', generate_orders customers now n s = some (os, s') ∧ os.length = n := by
  induction n generalizing s with
  | zero => exact ⟨[], s, rfl, rfl⟩
  | succ k ih =>
    simp only [generate_orders]
    split
    · rename_i hc
      obtain ⟨c, s3, hc2⟩ := choice_isSome (uuidDraw (randint 0 180 s).2).2 customers hne
      rw [hc] at hc2
      cases hc2
    · rename_i c s3 hc
      split
      · rename_i hrec
        obtain ⟨os2, s52, hrec2, _⟩ := ih (rngNext s3).2
        rw [hrec] at hrec2
        cases hrec2
      · rename_i os s5 hrec
        obtain ⟨os2, s52, hrec2, hlen⟩ := ih (rngNext s3).2
        rw [hrec] at hrec2
        injection hrec2 with hpair
        injection hpair with h1 h2
        subst h1
        exact ⟨_, s5, rfl, by simp [hlen]⟩

theorem go_mem (customers : List Customer) (now : Int) (n : Nat) (s : GenState)
    (os : List Order) (s' : GenState)
    (h : generate_orders customers now n s = some (os, s')) :
    ∀ o ∈ os, o.customer_id ∈ customers.map Customer.id := by
  induction n generalizing s os s' with
  | zero =>
    simp only [generate_orders] at h
    obtain ⟨h1, _⟩ := Prod.mk.injEq .. ▸ Option.some.injEq .. ▸ h
    subst h1
    intro o ho
    cases ho
  | succ k ih =>
    simp only [generate_orders] at h
    split at h
    · cases h
    · rename_i c s3 hc
      split at h
      · cases h
      · rename_i os0 s5 hrec
        obtain ⟨h1, _⟩ := Prod.mk.injEq .. ▸ Option.some.injEq .. ▸ h
        subst h1
        intro o ho
        rcases List.mem_cons.1 ho with h0 | hrest
        · subst h0
          exact List.mem_map_of_mem Customer.id (choice_mem _ _ _ _ hc)
        · exact ih _ _ _ hrec o hrest

theorem gil_some (o : Order) (products : List Product) (hne : products ≠ [])
    (k : Nat) (s : GenState) :
    ∃ its s', genItemsLoop o products k s = some (its, s') ∧ its.length = k := by
  induction k generalizing s with
  | zero => exact ⟨[], s, rfl, rfl⟩
  | succ j ih =>
    simp only [genItemsLoop]
    split
    · rename_i hc
      obtain ⟨p, s1, hc2⟩ := choice_isSome s products hne
      rw [hc] at hc2
      cases hc2
    · rename_i p s1 hc
      split
      · rename_i hrec
        obtain ⟨its2, s42, hrec2, _⟩ := ih (uuidDraw (randint 1 5 s1).2).2
        rw [hrec] at hrec2
        cases hrec2
      · rename_i its s4 hrec
        obtain ⟨its2, s42, hrec2, hlen⟩ := ih (uuidDraw (randint 1 5 s1).2).2
        rw [hrec] at hrec2
        injection hrec2 with hpair
        injection hpair with h1 h2
        subst h1
        exact ⟨_, s4, rfl, by simp [hlen]⟩

theorem gil_props (o : Order) (products : List Product) (k : Nat) (s : GenState)
    (its : List OrderItem) (s' : GenState)
    (h : genItemsLoop o products k s = some (its, s')) :
    its.length = k ∧
      ∀ it ∈ its, it.order_id = o.id ∧ it.product_id ∈ products.map Product.id := by
  induction k generalizing s its s' with
  | zero =>
    simp only [genItemsLoop] at h
    injection h with hpair
    injection hpair with h1 h2
    subst h1
    exact ⟨rfl, fun it hit => absurd hit (List.not_mem_nil it)⟩
  | succ j ih =>
    simp only [genItemsLoop] at h
    split at h
    · cases h
    · rename_i p s1 hc
      split at h
      · cases h
      · rename_i its0 s4 hrec
        injection h with hpair
        injection hpair with h1 h2
        subst h1
        obtain ⟨hlen, hall⟩ := ih _ _ _ hrec
        refine ⟨by simp [hlen], ?_⟩
        intro it hit
        rcases List.mem_cons.1 hit with h0 | hrest
        · subst h0
          exact ⟨rfl, List.mem_map_of_mem Product.id (choice_mem _ _ _ _ hc)⟩
        · exact hall it hrest

theorem goi_some (products : List Product) (mi : Nat) (hne : products ≠ [])
    (hmi : 1 ≤ mi) (os : List Order) (s : GenState) :
    ∃ its s', generate_order_items products mi os s = some (its, s') ∧
      os.length ≤ its.length ∧ its.length ≤ os.length * mi := by
  induction os generalizing s with
  | nil => exact ⟨[], s, rfl, Nat.le_refl 0, by simp⟩
  | cons o rest ih =>
    simp only [generate_order_items, genItemsForOrder]
    have hk := randint_bounds 1 mi s hmi
    obtain ⟨its1, s1, hgil, hlen1⟩ :=
      gil_some o products hne (randint 1 mi s).1 (randint 1 mi s).2
    rw [hgil]
    dsimp only
    obtain ⟨more, s2, hrec, hlo, hhi⟩ := ih s1
    rw [hrec]
    dsimp only
    refine ⟨its1 ++ more, s2, rfl, ?_, ?_⟩
    · simp only [List.length_append, List.length_cons, hlen1]
      omega
    · simp only [List.length_append, List.length_cons, hlen1]
      have : (rest.length + 1) * mi = rest.length * mi + mi := by ring
      omega

theorem goi_mem (products : List Product) (mi : Nat) (os : List Order)
    (s : GenState) (its : List OrderItem) (s' : GenState)
    (h : generate_order_items products mi os s = some (its, s')) :
    ∀ it ∈ its, it.order_id ∈ os.map Order.id ∧
      it.product_id ∈ products.map Product.id := by
  induction os generalizing s its s' with
  | nil =>
    simp only [generate_order_items] at h
    injection h with hpair
    injection hpair with h1 h2
    subst h1
    exact fun it hit => absurd hit (List.not_mem_nil it)
  | cons o rest ih =>
    simp only [generate_order_items, genItemsForOrder] at h
    split at h
    · cases h
    · rename_i its1 s1 hgil
      split at h
      · cases h
      · rename_i more s2 hrec
        injection h with hpair
        injection hpair with h1 h2
        subst h1
        intro it hit
        rcases List.mem_append.1 hit with h1 | h2
        · obtain ⟨_, hall⟩ := gil_props _ _ _ _ _ _ hgil
          obtain ⟨hoid, hpid⟩ := hall it h1
          exact ⟨by rw [hoid]; exact List.mem_cons_self _ _, hpid⟩
        · obtain ⟨hoid, hpid⟩ := ih _ _ _ hrec it h2
          exact ⟨List.mem_cons_of_mem _ hoid, hpid⟩

theorem goi_segs (products : List Product) (mi : Nat) (os : List Order)
    (s : GenState) (its : List OrderItem) (s' : GenState)
    (h : generate_order_items products mi os s = some (its, s')) :
    ∃ segs : List (List OrderItem), its = segs.flatten ∧
      segs.length = os.length ∧
      ∀ i, ∀ it ∈ segs.getD i [], it.order_id = (os.getD i order0).id := by
  induction os generalizing s its s' with
  | nil =>
    simp only [generate_order_items] at h
    injection h with hpair
    injection hpair with h1 h2
    subst h1
    exact ⟨[], rfl, rfl, fun i it hit => absurd hit (List.not_mem_nil it)⟩
  | cons o rest ih =>
    simp only [generate_order_items, genItemsForOrder] at h
    split at h
    · cases h
    · rename_i its1 s1 hgil
      split at h
      · cases h
      · rename_i more s2 hrec
        injection h with hpair
        injection hpair with h1 h2
        subst h1
        obtain ⟨segs, hflat, hlen, hids⟩ := ih _ _ _ hrec
        refine ⟨its1 :: segs, by simp [hflat], by simp [hlen], ?_⟩
        intro i it hit
        cases i with
        | zero =>
          simp only [List.getD_cons_zero] at hit ⊢
          exact (gil_props _ _ _ _ _ _ hgil).2 it hit |>.1
        | succ j =>
          simp only [List.getD_cons_succ] at hit ⊢
          exact hids j it hit

theorem gpGo_length (t : Nat → Rat) (os : List Order) (s : GenState) :
    (gpGo t os s).1.length = os.length := by
  induction os generalizing s with
  | nil => rfl
  | cons o rest ih => simp [gpGo, ih]

theorem gpGo_getD (t : Nat → Rat) (os : List Order) (s : GenState) (i : Nat)
    (hi : i < os.length) :
    ((gpGo t os s).1.getD i payment0).order_id = (os.getD i order0).id ∧
    ((gpGo t os s).1.getD i payment0).amount = round2 (t (os.getD i order0).id) ∧
    ∃ hr : Nat, 1 ≤ hr ∧ hr ≤ 48 ∧
      ((gpGo t os s).1.getD i payment0).paid_at =
        (os.getD i order0).order_date + (hr : Int) := by
  induction os generalizing s i with
  | nil => cases hi
  | cons o rest ih =>
    cases i with
    | zero =>
      simp only [gpGo, List.getD_cons_zero]
      refine ⟨trivial, trivial, (randint 1 48 (rngNext (uuidDraw s).2).2).1, ?_, ?_, rfl⟩
      · exact (randint_bounds 1 48 _ (by omega)).1
      · exact (randint_bounds 1 48 _ (by omega)).2
    | succ j =>
      simp only [gpGo, List.getD_cons_succ]
      exact ih _ j (Nat.lt_of_succ_lt_succ hi)

theorem gpGo_mem (t : Nat → Rat) (os : List Order) (s : GenState) :
    ∀ p ∈ (gpGo t os s).1, p.order_id ∈ os.map Order.id := by
  induction os generalizing s with
  | nil => intro p hp; cases hp
  | cons o rest ih =>
    intro p hp
    simp only [gpGo] at hp
    rcases List.mem_cons.1 hp with h0 | hrest
    · subst h0
      exact List.mem_cons_self _ _
    · exact List.mem_cons_of_mem _ (ih _ p hrest)

/-- Sum of `quantity * unit_price` over a list of items. -/
def subtotal (its : List OrderItem) : Rat :=
  (its.map (fun it => (it.quantity : Rat) * it.unit_price)).sum

theorem itemTotals_spec (its : List OrderItem) (t : Nat → Rat) (oid : Nat) :
    itemTotals its t oid =
      t oid + subtotal (its.filter (fun it => it.order_id == oid)) := by
  induction its generalizing t with
  | nil => simp [itemTotals, subtotal]
  | cons it rest ih =>
    rw [itemTotals, ih, List.filter_cons]
    by_cases h : it.order_id = oid
    · simp only [h, beq_self_eq_true, if_true, subtotal, List.map_cons, List.sum_cons,
        bumpTotals]
      ring
    · have hb : (it.order_id == oid) = false := beq_eq_false_iff_ne.2 h
      have hb2 : ¬oid = it.order_id := fun hx => h hx.symm
      simp [hb, hb2, bumpTotals]

theorem getD_id_mem (os : List Order) (j : Nat) (hj : j < os.length) :
    (os.getD j order0).id ∈ os.map Order.id := by
  rw [List.getD_eq_getElem _ _ hj]
  exact List.mem_map_of_mem Order.id (List.getElem_mem _)

theorem filter_flatten_eq (os : List Order) (segs : List (List OrderItem))
    (hlen : segs.length = os.length)
    (hids : ∀ i, ∀ it ∈ segs.getD i [], it.order_id = (os.getD i order0).id)
    (hnd : (os.map Order.id).Nodup) (i : Nat) (hi : i < os.length) :
    segs.flatten.filter (fun it => it.order_id == (os.getD i order0).id) =
      segs.getD i [] := by
  induction os generalizing segs i with
  | nil => cases hi
  | cons o rest ih =>
    cases segs with
    | nil => simp at hlen
    | cons seg st =>
      have hst : st.length = rest.length := by
        simpa using hlen
      rw [List.map_cons, List.nodup_cons] at hnd
      obtain ⟨hid0, hndr⟩ := hnd
      rw [List.flatten_cons, List.filter_append]
      cases i with
      | zero =>
        simp only [List.getD_cons_zero]
        have hseg : seg.filter (fun it => it.order_id == o.id) = seg := by
          rw [List.filter_eq_self]
          intro it hit
          have := hids 0 it (by simpa using hit)
          simpa using this
        have hrest : st.flatten.filter (fun it => it.order_id == o.id) = [] := by
          rw [List.filter_eq_nil_iff]
          intro it hit
          obtain ⟨l, hl, hitl⟩ := List.mem_flatten.1 hit
          obtain ⟨j, hj, hlj⟩ := List.mem_iff_getElem.1 hl
          have hitj : it ∈ st.getD j [] := by
            rw [List.getD_eq_getElem _ _ hj, hlj]
            exact hitl
          have hoid := hids (j + 1) it (by simpa using hitj)
          simp only [List.getD_cons_succ] at hoid
          have hmem : (rest.getD j order0).id ∈ rest.map Order.id :=
            getD_id_mem rest j (hst ▸ hj)
          intro hbeq
          rw [beq_iff_eq] at hbeq
          rw [hbeq] at hoid
          exact hid0 (hoid ▸ hmem)
        rw [hseg, hrest, List.append_nil]
      | succ j =>
        simp only [List.getD_cons_succ]
        have hj : j < rest.length := Nat.lt_of_succ_lt_succ hi
        have hseg : seg.filter (fun it => it.order_id == (rest.getD j order0).id) = [] := by
          rw [List.filter_eq_nil_iff]
          intro it hit
          have hoid := hids 0 it (by simpa using hit)
          simp only [List.getD_cons_zero] at hoid
          intro hbeq
          rw [beq_iff_eq] at hbeq
          rw [hoid] at hbeq
          exact hid0 (hbeq ▸ getD_id_mem rest j hj)
        rw [hseg, List.nil_append]
        exact ih st hst (fun k it hit => by
          have := hids (k + 1) it (by simpa using hit)
          simpa using this) hndr j hj

theorem generateAll_inv (cc cp co mi : Nat) (now : Int) (s : GenState) (ds : Dataset)
    (h : generateAll cc cp co mi now s = some ds) :
    ∃ s3 s4,
      ds.customers = (generate_customers cc s).1 ∧
      ds.products = (generate_products cp (generate_customers cc s).2).1 ∧
      generate_orders ds.customers now co
        (generate_products cp (generate_customers cc s).2).2 = some (ds.orders, s3) ∧
      generate_order_items ds.products mi ds.orders s3 = some (ds.order_items, s4) ∧
      ds.payments = (generate_payments ds.orders ds.order_items s4).1 := by
  simp only [generateAll] at h
  split at h
  · cases h
  · rename_i os s3 horders
    split at h
    · cases h
    · rename_i its s4 hitems
      injection h with hds
      subst hds
      exact ⟨s3, s4, rfl, rfl, horders, hitems, rfl⟩

/-! ### Claim theorems for the generator -/

/-- Claim C2: for all counts cc, cp, co > 0 and max_items mi ≥ 1, the
generator succeeds and produces exactly cc customers, cp products, co
orders, exactly co payments, and between co·1 and co·mi order items
inclusive. -/
theorem C2_generated_counts (cc cp co mi : Nat) (now : Int) (s : GenState)
    (hcc : 0 < cc) (hcp : 0 < cp) (_hco : 0 < co) (hmi : 1 ≤ mi) :
    ∃ ds : Dataset, generateAll cc cp co mi now s = some ds ∧
      ds.customers.length = cc ∧ ds.products.length = cp ∧
      ds.orders.length = co ∧ ds.payments.length = co ∧
      co * 1 ≤ ds.order_items.length ∧ ds.order_items.length ≤ co * mi := by
  have hcsne : (generate_customers cc s).1 ≠ [] := by
    intro hnil
    have := gc_length cc s
    rw [hnil] at this
    simp only [List.length_nil] at this
    omega
  have hpsne : (generate_products cp (generate_customers cc s).2).1 ≠ [] := by
    intro hnil
    have := gpd_length cp (generate_customers cc s).2
    rw [hnil] at this
    simp only [List.length_nil] at this
    omega
  obtain ⟨os, s3, horders, holen⟩ :=
    go_some (generate_customers cc s).1 now hcsne co
      (generate_products cp (generate_customers cc s).2).2
  obtain ⟨its, s4, hitems, hlo, hhi⟩ :=
    goi_some (generate_products cp (generate_customers cc s).2).1 mi hpsne hmi os s3
  refine ⟨⟨(generate_customers cc s).1, (generate_products cp (generate_customers cc s).2).1,
      os, its, (generate_payments os its s4).1⟩, ?_, gc_length cc s, gpd_length cp _,
      holen, ?_, ?_, ?_⟩
  · simp only [generateAll]
    rw [horders]
    dsimp only
    rw [hitems]
  · simpa [generate_payments, gpGo_length] using holen
  · rw [Nat.mul_one]
    dsimp only
    omega
  · dsimp only
    rw [holen] at hhi
    exact hhi

/-- Claim C3: referential integrity of the generated collections — every
order's customer_id is a generated customer id, every item's order_id and
product_id are generated order and product ids, and every payment's
order_id is a generated order id. -/
theorem C3_referential_integrity (cc cp co mi : Nat) (now : Int) (s : GenState)
    (ds : Dataset) (_hmi : 1 ≤ mi) (h : generateAll cc cp co mi now s = some ds) :
    (∀ o ∈ ds.orders, o.customer_id ∈ ds.customers.map Customer.id) ∧
    (∀ it ∈ ds.order_items, it.order_id ∈ ds.orders.map Order.id ∧
      it.product_id ∈ ds.products.map Product.id) ∧
    (∀ p ∈ ds.payments, p.order_id ∈ ds.orders.map Order.id) := by
  obtain ⟨s3, s4, hcs, hps, horders, hitems, hpays⟩ :=
    generateAll_inv cc cp co mi now s ds h
  refine ⟨?_, ?_, ?_⟩
  · exact go_mem _ _ _ _ _ _ horders
  · exact goi_mem _ _ _ _ _ _ hitems
  · rw [hpays]
    exact gpGo_mem _ _ _

/-- Claim C9: the payments list is positionally aligned with the orders
list — it has the same length, and the i-th payment's order_id is the
i-th order's id, so each order gets exactly one payment, in order. -/
theorem C9_payment_alignment (orders : List Order) (items : List OrderItem)
    (s : GenState) :
    (generate_payments orders items s).1.length = orders.length ∧
    ∀ i, i < orders.length →
      ((generate_payments orders items s).1.getD i payment0).order_id =
        (orders.getD i order0).id := by
  exact ⟨gpGo_length _ _ _, fun i hi => (gpGo_getD _ _ _ i hi).1⟩

/-- Claim C8: every generated payment is paid strictly after its order's
order_date; specifically paid_at = order_date plus a whole-hour offset
drawn from 1 to 48 inclusive. -/
theorem C8_paid_after_order (cc cp co mi : Nat) (now : Int) (s : GenState)
    (ds : Dataset) (_hmi : 1 ≤ mi) (h : generateAll cc cp co mi now s = some ds) :
    ds.payments.length = ds.orders.length ∧
    ∀ i, i < ds.payments.length →
      (ds.payments.getD i payment0).order_id = (ds.orders.getD i order0).id ∧
      (ds.orders.getD i order0).order_date < (ds.payments.getD i payment0).paid_at ∧
      ∃ hr : Nat, 1 ≤ hr ∧ hr ≤ 48 ∧
        (ds.payments.getD i payment0).paid_at =
          (ds.orders.getD i order0).order_date + (hr : Int) := by
  obtain ⟨s3, s4, hcs, hps, horders, hitems, hpays⟩ :=
    generateAll_inv cc cp co mi now s ds h
  have hlen : ds.payments.length = ds.orders.length := by
    rw [hpays]
    exact gpGo_length _ _ _
  refine ⟨hlen, ?_⟩
  intro i hi
  rw [hlen] at hi
  have hget := gpGo_getD (itemTotals ds.order_items fun _ => 0) ds.orders s4 i hi
  rw [hpays]
  simp only [generate_payments]
  obtain ⟨hoid, hamt, hr, hr1, hr48, hpaid⟩ := hget
  refine ⟨hoid, ?_, hr, hr1, hr48, hpaid⟩
  rw [hpaid]
  omega

/-- Claim C1: each generated payment's amount is the 2-decimal rounding of
the sum of quantity × unit_price over exactly the order items generated
for its order (the i-th per-order segment of the item list), and over
nothing else. -/
theorem C1_payment_amounts (cc cp co mi : Nat) (now : Int) (s : GenState)
    (ds : Dataset) (_hmi : 1 ≤ mi) (h : generateAll cc cp co mi now s = some ds)
    (hnd : (ds.orders.map Order.id).Nodup) :
    ds.payments.length = ds.orders.length ∧
    ∃ segs : List (List OrderItem),
      ds.order_items = segs.flatten ∧
      segs.length = ds.orders.length ∧
      (∀ i, ∀ it ∈ segs.getD i [], it.order_id = (ds.orders.getD i order0).id) ∧
      ∀ i, i < ds.orders.length →
        (ds.payments.getD i payment0).amount = round2 (subtotal (segs.getD i [])) := by
  obtain ⟨s3, s4, hcs, hps, horders, hitems, hpays⟩ :=
    generateAll_inv cc cp co mi now s ds h
  obtain ⟨segs, hflat, hslen, hsids⟩ := goi_segs _ _ _ _ _ _ hitems
  refine ⟨by rw [hpays]; exact gpGo_length _ _ _, segs, hflat, hslen, hsids, ?_⟩
  intro i hi
  have hamt := (gpGo_getD (itemTotals ds.order_items fun _ => 0) ds.orders s4 i hi).2.1
  rw [hpays]
  simp only [generate_payments]
  rw [hamt, itemTotals_spec, hflat,
    filter_flatten_eq ds.orders segs hslen hsids hnd i hi]
  simp

/-! ### Claims about `main` of the generator (determinism, validation,
file writing) -/

/-- A first concrete entropy stream. -/
def entA : Rng := ⟨fun _ => 0, 0⟩

/-- A second concrete entropy stream, differing from `entA`. -/
def entB : Rng := ⟨fun _ => 1, 0⟩

/-- An empty output directory. -/
def fs0 : FileSys := fun _ => none

/-- Claim C4 is refuted by the code: customer ids (and email suffixes)
come from `uuid.uuid4()`, i.e. from OS entropy that `random.seed`/
`Faker.seed` do not control.  Two runs with the same seed (1337), the
same counts (1, 1, 1, 1) and the same reference time 0, but different
entropy, both succeed and produce different customer id lists — the
output is not a function of (seed, counts, reference time). -/
theorem C4_seed_determinism_fails :
    (generateAll 1 1 1 1 0 ⟨seedRng 1337, entA⟩).isSome = true ∧
    (generateAll 1 1 1 1 0 ⟨seedRng 1337, entB⟩).isSome = true ∧
    Option.map (fun ds => ds.customers.map Customer.id)
        (generateAll 1 1 1 1 0 ⟨seedRng 1337, entA⟩) ≠
      Option.map (fun ds => ds.customers.map Customer.id)
        (generateAll 1 1 1 1 0 ⟨seedRng 1337, entB⟩) := by
  refine ⟨rfl, rfl, ?_⟩
  decide

/-- Claim C5 counterexample: with all three counts zero (non-positive),
the generator run succeeds and silently writes exactly the five
header-only CSV files — it does not fail fast. -/
theorem C5_counterexample :
    (generatorMain 0 0 0 4 1337 0 entA fs0).isSome = true ∧
    Option.map (fun fs => (fs "customers.csv", fs "products.csv", fs "orders.csv",
        fs "order_items.csv", fs "payments.csv"))
      (generatorMain 0 0 0 4 1337 0 entA fs0) =
      some (some [customersHeader], some [productsHeader], some [ordersHeader],
        some [orderItemsHeader], some [paymentsHeader]) :=
  ⟨rfl, rfl⟩

/-- Claim C5 amended: non-positive counts are not validated.  With all
counts zero the generator succeeds and silently writes five header-only
files (for every seed, entropy and prior directory content); with zero
customers but a positive order count it aborts with an uncaught
exception from `random.choice` on an empty list, not with a descriptive
configuration error. -/
theorem C5_no_count_validation (cp mi seed : Nat) (now : Int) (ent : Rng)
    (fs : FileSys) :
    Option.map (fun fsr => (fsr "customers.csv", fsr "products.csv", fsr "orders.csv",
        fsr "order_items.csv", fsr "payments.csv"))
      (generatorMain 0 0 0 mi seed now ent fs) =
      some (some [customersHeader], some [productsHeader], some [ordersHeader],
        some [orderItemsHeader], some [paymentsHeader]) ∧
    generatorMain 0 cp 1 mi seed now ent fs = none :=
  ⟨rfl, rfl⟩

/-- Claim C10: `_write_csv` truncates — afterwards the written path holds
exactly the header row followed by the given data rows, whatever was
there before, and every other path is untouched. -/
theorem C10_write_csv_truncates (fs : FileSys) (path : String)
    (headers : List String) (rows : List (List String)) :
    write_csv fs path headers rows path = some (headers :: rows) ∧
    ∀ p, p ≠ path → write_csv fs path headers rows p = fs p := by
  constructor
  · simp [write_csv]
  · intro p hp
    simp [write_csv, hp]

/-! ### Helper lemmas about the loader -/

theorem updTables_append (pre post : List (String × List Row)) (t : String)
    (rows : List Row) (hpre : ∀ tr ∈ pre, tr.1 ≠ t) :
    updTables (pre ++ post) t rows = pre ++ updTables post t rows := by
  induction pre with
  | nil => rfl
  | cons tr rest ih =>
    obtain ⟨n, rs⟩ := tr
    have hn : n ≠ t := hpre (n, rs) (List.mem_cons_self _ _)
    simp only [List.cons_append, updTables, if_neg hn]
    exact congrArg (List.cons (n, rs)) (ih (fun tr htr => hpre tr (List.mem_cons_of_mem _ htr)))

theorem updTables_notmem (l : List (String × List Row)) (t : String)
    (rows : List Row) (h : ∀ tr ∈ l, tr.1 ≠ t) :
    updTables l t rows = l := by
  induction l with
  | nil => rfl
  | cons tr rest ih =>
    obtain ⟨n, rs⟩ := tr
    have hn : n ≠ t := h (n, rs) (List.mem_cons_self _ _)
    simp only [updTables, if_neg hn]
    rw [ih (fun tr htr => h tr (List.mem_cons_of_mem _ htr))]

theorem insert_many_mid (pre post : List (String × List Row)) (t : String)
    (rs rows : List Row)
    (hpre : ∀ tr ∈ pre, tr.1 ≠ t) (hpost : ∀ tr ∈ post, tr.1 ≠ t) :
    insert_many ⟨pre ++ (t, rs) :: post⟩ t rows = ⟨pre ++ (t, rs ++ rows) :: post⟩ := by
  by_cases hrows : rows = []
  · subst hrows
    simp [insert_many]
  · simp only [insert_many, if_neg hrows]
    rw [DBState.mk.injEq, updTables_append pre _ t rows hpre]
    simp [updTables, updTables_notmem post t rows hpost]

theorem createTablesGo_ok (names : List String) (db : DBState)
    (hnd : names.Nodup) (hdisj : ∀ n ∈ names, n ∉ db.tables.map Prod.fst) :
    createTablesGo names db =
      Except.ok ⟨db.tables ++ names.map (fun n => (n, []))⟩ := by
  induction names generalizing db with
  | nil => simp [createTablesGo]
  | cons n rest ih =>
    rw [List.nodup_cons] at hnd
    obtain ⟨hn, hndr⟩ := hnd
    have hnotin : n ∉ db.tables.map Prod.fst := hdisj n (List.mem_cons_self _ _)
    simp only [createTablesGo, createTable, if_neg hnotin]
    rw [ih ⟨db.tables ++ [(n, [])]⟩ hndr ?_]
    · simp
    · intro m hm
      simp only [List.map_append, List.mem_append, List.map_cons, List.map_nil,
        List.mem_singleton]
      rintro (hmem | hmeq)
      · exact hdisj m (List.mem_cons_of_mem _ hm) hmem
      · exact hn (hmeq ▸ hm)

theorem createTablesGo_error (names : List String) (db : DBState)
    (hclash : ∃ n ∈ names, n ∈ db.tables.map Prod.fst) :
    ∃ e, createTablesGo names db = Except.error e := by
  induction names generalizing db with
  | nil => simp at hclash
  | cons n rest ih =>
    by_cases hn : n ∈ db.tables.map Prod.fst
    · refine ⟨"table " ++ n ++ " already exists", ?_⟩
      simp [createTablesGo, createTable, if_pos hn]
    · obtain ⟨m, hm, hmem⟩ := hclash
      rcases List.mem_cons.1 hm with hmn | hmr
      · exact absurd (hmn ▸ hmem) hn
      · simp only [createTablesGo, createTable, if_neg hn]
        refine ih ⟨db.tables ++ [(n, [])]⟩ ⟨m, hmr, ?_⟩
        simp only [List.map_append, List.mem_append]
        exact Or.inl hmem

theorem ingestAll_loads (fileAt : FileSys) (specs : List (String × String))
    (ts : List (String × List Row))
    (hd : ∀ tf ∈ specs, ∀ tr ∈ ts, tr.1 ≠ tf.1)
    (hnd : (specs.map Prod.fst).Nodup)
    (hf : ∀ tf ∈ specs, (fileAt tf.2).isSome = true) :
    ingestAll fileAt specs ⟨ts ++ specs.map (fun tf => (tf.1, []))⟩ =
      Except.ok ⟨ts ++ specs.map
        (fun tf => (tf.1, load_csv_rows ((fileAt tf.2).getD [])))⟩ := by
  induction specs generalizing ts with
  | nil => simp [ingestAll]
  | cons tf rest ih =>
    obtain ⟨t, f⟩ := tf
    obtain ⟨csv, hcsv⟩ := Option.isSome_iff_exists.1 (hf (t, f) (List.mem_cons_self _ _))
    rw [List.map_cons] at hnd
    rw [List.nodup_cons] at hnd
    obtain ⟨hn, hndr⟩ := hnd
    have hn2 : t ∉ List.map Prod.fst rest := hn
    have hcsv2 : fileAt f = some csv := hcsv
    simp only [List.map_cons, ingestAll, ingestOne, hcsv2]
    have hpre : ∀ tr ∈ ts, tr.1 ≠ t :=
      fun tr htr => hd (t, f) (List.mem_cons_self _ _) tr htr
    have hpost : ∀ tr ∈ rest.map (fun tf => ((tf : String × String).1, ([] : List Row))),
        tr.1 ≠ t := by
      intro tr htr hteq
      obtain ⟨tf2, htf2, heq⟩ := List.mem_map.1 htr
      apply hn2
      have h1 : tf2.1 = t := by rw [← heq] at hteq; exact hteq
      exact h1 ▸ List.mem_map_of_mem Prod.fst htf2
    rw [insert_many_mid ts _ t [] (load_csv_rows csv) hpre hpost]
    have hts2 : ts ++ (t, [] ++ load_csv_rows csv) ::
        rest.map (fun tf => ((tf : String × String).1, ([] : List Row))) =
        (ts ++ [(t, load_csv_rows csv)]) ++
          rest.map (fun tf => ((tf : String × String).1, ([] : List Row))) := by
      simp
    rw [hts2]
    rw [ih (ts ++ [(t, load_csv_rows csv)]) ?_ hndr ?_]
    · simp
    · intro tf2 htf2 tr htr
      rcases List.mem_append.1 htr with hl | hr
      · exact hd tf2 (List.mem_cons_of_mem _ htf2) tr hl
      · rw [List.mem_singleton] at hr
        subst hr
        intro hteq
        apply hn2
        have h1 : tf2.1 = t := hteq.symm
        exact h1 ▸ List.mem_map_of_mem Prod.fst htf2
    · exact fun tf2 htf2 => hf tf2 (List.mem_cons_of_mem _ htf2)

/-! ### Claim theorems for the loader -/

/-- Claim C6: a header-only CSV file inserts nothing and does not fail;
with all five files header-only, the load completes successfully with
all five tables empty. -/
theorem C6_header_only_noop (fileAt : FileSys) (existing : Option DBState)
    (h1 h2 h3 h4 h5 : List String)
    (hc : fileAt "customers.csv" = some [h1])
    (hp : fileAt "products.csv" = some [h2])
    (ho : fileAt "orders.csv" = some [h3])
    (hoi : fileAt "order_items.csv" = some [h4])
    (hpay : fileAt "payments.csv" = some [h5]) :
    (∀ (db : DBState) (table : String) (header : List String),
      insert_many db table (load_csv_rows [header]) = db) ∧
    loader_main fileAt existing false =
      Except.ok ⟨[("customers", []), ("products", []), ("orders", []),
        ("order_items", []), ("payments", [])]⟩ := by
  constructor
  · intro db table header
    rfl
  · have hstart : loader_main fileAt existing false =
        ingestAll fileAt ingestPairs ⟨[("customers", []), ("products", []),
          ("orders", []), ("order_items", []), ("payments", [])]⟩ := rfl
    rw [hstart]
    simp [ingestAll, ingestPairs, ingestOne, hc, hp, ho, hoi, hpay,
      load_csv_rows, insert_many]

/-- The loader's table-creation step fails whenever any of the five table
names is already present in the reused store. -/
theorem createTables_clash (db : DBState)
    (hclash : ∃ n ∈ tableNames, n ∈ db.tables.map Prod.fst) :
    ∃ e, createTables db = Except.error e :=
  createTablesGo_error tableNames db hclash

/-- Claim C7 counterexample: with the keep-existing flag set and an
existing store that already holds the five tables with no rows at all
(so no duplicate-key conflict is possible), the load fails at CREATE
TABLE instead of succeeding additively. -/
theorem C7_counterexample :
    loader_main
      (fun p =>
        if p = "customers.csv" then some [customersHeader]
        else if p = "products.csv" then some [productsHeader]
        else if p = "orders.csv" then some [ordersHeader]
        else if p = "order_items.csv" then some [orderItemsHeader]
        else if p = "payments.csv" then some [paymentsHeader]
        else none)
      (some ⟨[("customers", []), ("products", []), ("orders", []),
        ("order_items", []), ("payments", [])]⟩) true =
      Except.error "table customers already exists" := rfl

/-- Claim C7 amended: the loader is destructive by default — with the
keep-existing flag unset, a pre-existing store has no effect on the
result.  With the flag set the existing store is reused, but the loader
unconditionally issues CREATE TABLE (without IF NOT EXISTS) for the five
tables, so the run errors whenever the reused store already contains any
of them (even with no rows, hence without any duplicate-key conflict).
When the reused store contains none of the five tables, the load
proceeds additively into it — the store's unrelated tables are preserved
and the five tables are created alongside them — the run succeeding on
inputs free of insertion conflicts, as the original claim's caveat
already required: proven here for header-only inputs (third conjunct)
and for a concrete well-formed, non-conflicting data row inserted next
to an unrelated pre-existing table (fourth conjunct); a duplicate
primary key, a short row, or an unknown header column would instead make
`conn.executemany` raise. -/
theorem C7_loader_modes :
    (∀ (fileAt : FileSys) (db : DBState),
      loader_main fileAt (some db) false = loader_main fileAt none false) ∧
    (∀ (fileAt : FileSys) (db : DBState),
      (∃ n ∈ tableNames, n ∈ db.tables.map Prod.fst) →
      ∃ e, loader_main fileAt (some db) true = Except.error e) ∧
    (∀ (fileAt : FileSys) (ts : List (String × List Row))
      (h1 h2 h3 h4 h5 : List String),
      (∀ tr ∈ ts, tr.1 ∉ tableNames) →
      fileAt "customers.csv" = some [h1] → fileAt "products.csv" = some [h2] →
      fileAt "orders.csv" = some [h3] → fileAt "order_items.csv" = some [h4] →
      fileAt "payments.csv" = some [h5] →
      loader_main fileAt (some ⟨ts⟩) true =
        Except.ok ⟨ts ++ [("customers", []), ("products", []), ("orders", []),
          ("order_items", []), ("payments", [])]⟩) ∧
    loader_main
      (fun p =>
        if p = "customers.csv" then
          some [customersHeader,
            ["c-1", "Ada", "Lovelace", "ada@example.com", "UK"]]
        else if p = "products.csv" then some [productsHeader]
        else if p = "orders.csv" then some [ordersHeader]
        else if p = "order_items.csv" then some [orderItemsHeader]
        else if p = "payments.csv" then some [paymentsHeader]
        else none)
      (some ⟨[("legacy", [[("k", "v")]])]⟩) true =
      Except.ok ⟨[("legacy", [[("k", "v")]]),
        ("customers", [[("id", "c-1"), ("first_name", "Ada"),
          ("last_name", "Lovelace"), ("email", "ada@example.com"),
          ("country", "UK")]]),
        ("products", []), ("orders", []), ("order_items", []),
        ("payments", [])]⟩ := by
  refine ⟨fun fileAt db => rfl, ?_, ?_, rfl⟩
  · intro fileAt db hclash
    obtain ⟨e, he⟩ := createTablesGo_error tableNames db hclash
    have he2 : createTables db = Except.error e := he
    refine ⟨e, ?_⟩
    simp only [loader_main, if_true, Option.getD_some, he2]
  · intro fileAt ts h1 h2 h3 h4 h5 hdisj hf1 hf2 hf3 hf4 hf5
    have hnames : ∀ n ∈ tableNames, n ∉ ts.map Prod.fst := by
      intro n hn hmem
      obtain ⟨tr, htr, heq⟩ := List.mem_map.1 hmem
      exact hdisj tr htr (heq ▸ hn)
    have hct : createTables ⟨ts⟩ =
        Except.ok ⟨ts ++ tableNames.map (fun n => (n, []))⟩ :=
      createTablesGo_ok tableNames ⟨ts⟩ (by decide) hnames
    have hload := ingestAll_loads fileAt ingestPairs ts ?_ (by decide) ?_
    · have hmapeq : ingestPairs.map
          (fun tf => ((tf : String × String).1, ([] : List Row))) =
          tableNames.map (fun n => (n, [])) := rfl
      rw [hmapeq] at hload
      have hgoal : loader_main fileAt (some ⟨ts⟩) true =
          ingestAll fileAt ingestPairs ⟨ts ++ tableNames.map (fun n => (n, []))⟩ := by
        simp only [loader_main, if_true, Option.getD_some, hct]
      rw [hgoal, hload]
      simp only [ingestPairs, List.map_cons, List.map_nil, hf1, hf2, hf3, hf4, hf5,
        Option.getD_some, load_csv_rows]
    · intro tf htf tr htr hteq
      have : tf.1 ∈ tableNames := by
        revert htf
        rw [show tableNames = ingestPairs.map Prod.fst from rfl]
        exact fun htf => List.mem_map_of_mem Prod.fst htf
      exact hdisj tr htr (hteq ▸ this)
    · intro tf htf
      fin_cases htf <;> simp [hf1, hf2, hf3, hf4, hf5]

/-! ### Concrete witnesses -/

/-- A concrete generation state for witness runs. -/
def s0 : GenState := ⟨⟨fun i => i + 7, 0⟩, ⟨fun i => 1000 + 3 * i, 0⟩⟩

/-- The dataset of a concrete witness run (counts 2, 2, 2, max items 2). -/
def ds0 : Dataset := (generateAll 2 2 2 2 0 s0).getD ⟨[], [], [], [], []⟩

/-- Concrete header-only input files for witness loads. -/
def hdrOnlyFiles : FileSys := fun p =>
  if p = "customers.csv" then some [customersHeader]
  else if p = "products.csv" then some [productsHeader]
  else if p = "orders.csv" then some [ordersHeader]
  else if p = "order_items.csv" then some [orderItemsHeader]
  else if p = "payments.csv" then some [paymentsHeader]
  else none

theorem C1_payment_amounts_witness :
    (1 ≤ 2 ∧ generateAll 2 2 2 2 0 s0 = some ds0 ∧
      (ds0.orders.map Order.id).Nodup) ∧
    (ds0.payments.length = ds0.orders.length ∧
      ∃ segs : List (List OrderItem),
        ds0.order_items = segs.flatten ∧
        segs.length = ds0.orders.length ∧
        (∀ i, ∀ it ∈ segs.getD i [], it.order_id = (ds0.orders.getD i order0).id) ∧
        ∀ i, i < ds0.orders.length →
          (ds0.payments.getD i payment0).amount = round2 (subtotal (segs.getD i []))) :=
  ⟨⟨by decide, rfl, by decide⟩,
    C1_payment_amounts 2 2 2 2 0 s0 ds0 (by decide) rfl (by decide)⟩

theorem C2_generated_counts_witness :
    (0 < 2 ∧ 1 ≤ 2) ∧
    ∃ ds : Dataset, generateAll 2 2 2 2 0 s0 = some ds ∧
      ds.customers.length = 2 ∧ ds.products.length = 2 ∧
      ds.orders.length = 2 ∧ ds.payments.length = 2 ∧
      2 * 1 ≤ ds.order_items.length ∧ ds.order_items.length ≤ 2 * 2 :=
  ⟨⟨by decide, by decide⟩,
    C2_generated_counts 2 2 2 2 0 s0 (by decide) (by decide) (by decide) (by decide)⟩

theorem C3_referential_integrity_witness :
    (1 ≤ 2 ∧ generateAll 2 2 2 2 0 s0 = some ds0) ∧
    ((∀ o ∈ ds0.orders, o.customer_id ∈ ds0.customers.map Customer.id) ∧
      (∀ it ∈ ds0.order_items, it.order_id ∈ ds0.orders.map Order.id ∧
        it.product_id ∈ ds0.products.map Product.id) ∧
      (∀ p ∈ ds0.payments, p.order_id ∈ ds0.orders.map Order.id)) :=
  ⟨⟨by decide, rfl⟩,
    C3_referential_integrity 2 2 2 2 0 s0 ds0 (by decide) rfl⟩

theorem C8_paid_after_order_witness :
    (1 ≤ 2 ∧ generateAll 2 2 2 2 0 s0 = some ds0) ∧
    (ds0.payments.length = ds0.orders.length ∧
      ∀ i, i < ds0.payments.length →
        (ds0.payments.getD i payment0).order_id = (ds0.orders.getD i order0).id ∧
        (ds0.orders.getD i order0).order_date < (ds0.payments.getD i payment0).paid_at ∧
        ∃ hr : Nat, 1 ≤ hr ∧ hr ≤ 48 ∧
          (ds0.payments.getD i payment0).paid_at =
            (ds0.orders.getD i order0).order_date + (hr : Int)) :=
  ⟨⟨by decide, rfl⟩,
    C8_paid_after_order 2 2 2 2 0 s0 ds0 (by decide) rfl⟩

theorem C9_payment_alignment_witness :
    (0 < ds0.orders.length) ∧
    ((generate_payments ds0.orders ds0.order_items s0).1.getD 0 payment0).order_id =
      (ds0.orders.getD 0 order0).id :=
  ⟨by decide,
    (C9_payment_alignment ds0.orders ds0.order_items s0).2 0 (by decide)⟩

/-- A pre-existing output directory content for the C10 witness. -/
def fsOld : FileSys := fun _ => some [["stale"], ["leftover"]]

theorem C10_write_csv_truncates_witness :
    write_csv fsOld "customers.csv" customersHeader [] "customers.csv" =
      some (customersHeader :: []) ∧
    (("orders.csv" : String) ≠ "customers.csv" ∧
      write_csv fsOld "customers.csv" customersHeader [] "orders.csv" =
        fsOld "orders.csv") :=
  ⟨(C10_write_csv_truncates fsOld "customers.csv" customersHeader []).1,
    by decide,
    (C10_write_csv_truncates fsOld "customers.csv" customersHeader []).2
      "orders.csv" (by decide)⟩

theorem C6_header_only_noop_witness :
    (hdrOnlyFiles "customers.csv" = some [customersHeader] ∧
      hdrOnlyFiles "products.csv" = some [productsHeader] ∧
      hdrOnlyFiles "orders.csv" = some [ordersHeader] ∧
      hdrOnlyFiles "order_items.csv" = some [orderItemsHeader] ∧
      hdrOnlyFiles "payments.csv" = some [paymentsHeader]) ∧
    ((∀ (db : DBState) (table : String) (header : List String),
      insert_many db table (load_csv_rows [header]) = db) ∧
    loader_main hdrOnlyFiles none false =
      Except.ok ⟨[("customers", []), ("products", []), ("orders", []),
        ("order_items", []), ("payments", [])]⟩) :=
  ⟨⟨rfl, rfl, rfl, rfl, rfl⟩,
    C6_header_only_noop hdrOnlyFiles none customersHeader productsHeader
      ordersHeader orderItemsHeader paymentsHeader rfl rfl rfl rfl rfl⟩

theorem C7_loader_modes_witness :
    ((∀ tr ∈ ([("other", ([] : List Row))] : List (String × List Row)),
        tr.1 ∉ tableNames) ∧
      hdrOnlyFiles "customers.csv" = some [customersHeader]) ∧
    loader_main hdrOnlyFiles (some ⟨[("other", [])]⟩) true =
      Except.ok ⟨[("other", [])] ++ [("customers", []), ("products", []),
        ("orders", []), ("order_items", []), ("payments", [])]⟩ :=
  ⟨⟨by decide, rfl⟩,
    C7_loader_modes.2.2.1 hdrOnlyFiles [("other", [])]
      customersHeader productsHeader ordersHeader orderItemsHeader
      paymentsHeader (by decide) rfl rfl rfl rfl rfl⟩

end Ecom
